import Mathlib

/-
Verification of the zim-converter repository (src/zim_converter.py and
src/parse_pageviews.py) against its natural-language specification.

The embedding below translates the conversion pipeline of zim_converter.py:
SQLite tables become Lean lists of rows, SQL statements become list
operations with the same semantics (INSERT fails on a primary-key conflict,
INSERT OR REPLACE first deletes every row conflicting on any unique
constraint, UPDATE maps over rows). Python strings are represented as
`List Char` with structurally recursive operations mirroring the string
methods the source uses, byte strings whose exact contents do not matter
for the claims (zstd-compressed article bodies, image bytes) are modelled
by injective wrappers or by their lengths, and the outcomes of fallible
external calls (entry fetches, redirect resolution, content decoding, the
ImageMagick subprocess, injected store-level faults) are explicit oracle
fields threaded through the state, mirroring the try/except structure of
the source.
-/

/-- Python strings, as character lists (kernel-evaluable). -/
abbrev Str := List Char

/-- Coerce a Lean string literal to the character-list representation. -/
def str (s : String) : Str := s.data

/-- Python `s.lower()` (ASCII case folding, as the source applies it to titles
and paths). -/
def strLower (s : Str) : Str := s.map Char.toLower

/-- Python `s.strip()`: remove leading and trailing whitespace. -/
def strTrim (s : Str) : Str :=
  ((s.dropWhile Char.isWhitespace).reverse.dropWhile Char.isWhitespace).reverse

/-- Python `s.startswith(p)`. -/
def strStartsWith (s p : Str) : Bool := p.isPrefixOf s

/-- Python `s.endswith(p)`. -/
def strEndsWith (s p : Str) : Bool := p.reverse.isPrefixOf s.reverse

/-- Python `pat in s` (substring containment). -/
def strIsInfix (pat s : Str) : Bool :=
  match s with
  | [] => pat.isEmpty
  | _ :: t => pat.isPrefixOf s || strIsInfix pat t

/-- Python `s.replace('_', ' ')` (single-character replacement). -/
def strUnderscoreToSpace (s : Str) : Str :=
  s.map (fun c => if c = '_' then ' ' else c)

namespace ZimConv

/-- Row of the `title_2_id` table: `id INTEGER NOT NULL, title_lower_case TEXT PRIMARY KEY`. -/
structure TitleRow where
  id : Nat
  title_lower_case : Str
deriving DecidableEq, Repr

/-- Models `zstd.compress(s.encode(), 9, 4)` as an injective wrapper around the
source text (lossless compression; contents otherwise opaque). -/
structure ZBody where
  source : Str
deriving DecidableEq, Repr

/-- Models `zstd.compress`. -/
def zstdCompress (s : Str) : ZBody := ⟨s⟩

/-- Row of the `articles` table:
`id INTEGER PRIMARY KEY, title TEXT NOT NULL UNIQUE, page_content_zstd BLOB NOT NULL`. -/
structure ArticleRow where
  id : Nat
  title : Str
  page_content_zstd : ZBody
deriving DecidableEq, Repr

/-- The output database produced by `setup_db`: the two tables the claims are about. -/
structure DB where
  articles : List ArticleRow
  title_2_id : List TitleRow
deriving DecidableEq, Repr

def emptyDB : DB := { articles := [], title_2_id := [] }

/-- `SELECT id FROM title_2_id WHERE title_lower_case = ?` followed by `fetchone()`. -/
def lookupTitle (t : Str) (db : DB) : Option Nat :=
  (db.title_2_id.find? (fun r => r.title_lower_case == t)).map (fun r => r.id)

/-- `INSERT INTO title_2_id VALUES(?, ?)`: fails (none, an IntegrityError on the
UNIQUE/primary-key `title_lower_case`) when the key is already present. -/
def insertTitle2Id (idx : Nat) (t : Str) (db : DB) : Option DB :=
  if db.title_2_id.any (fun r => r.title_lower_case == t) then none
  else some { db with title_2_id := db.title_2_id ++ [⟨idx, t⟩] }

/-- `INSERT OR REPLACE INTO title_2_id VALUES(?, ?)`: deletes any row with the same
primary key, then inserts. -/
def insertOrReplaceTitle2Id (idx : Nat) (t : Str) (db : DB) : DB :=
  { db with title_2_id :=
      db.title_2_id.filter (fun r => !(r.title_lower_case == t)) ++ [⟨idx, t⟩] }

/-- `UPDATE title_2_id SET id = ? WHERE id = ?` — note the WHERE clause is on `id`,
not on `title_lower_case`: every row owned by `oldId` is repointed. -/
def updateTitle2IdSetId (newId oldId : Nat) (db : DB) : DB :=
  { db with title_2_id :=
      db.title_2_id.map (fun r => if r.id = oldId then { r with id := newId } else r) }

/-- `INSERT OR REPLACE INTO articles VALUES(?, ?, ?)`: deletes every row conflicting
on either unique constraint (`id` primary key or `title` UNIQUE), then inserts. -/
def insertOrReplaceArticles (idx : Nat) (t : Str) (body : ZBody) (db : DB) : DB :=
  { db with articles :=
      db.articles.filter (fun r => !(r.id == idx) && !(r.title == t)) ++ [⟨idx, t, body⟩] }

/-- One archive entry, together with the outcome oracles of the external calls made
while processing it (each models one try/except site of the source):
`fetchFails` = `get_entry_by_id` raising inside `all_entry_gen`;
`redirectResolveFails` = `get_redirect_entry()`/`.index` raising;
`decodeFails` = `bytes(zim_entry.get_item().content).decode()` raising;
`storeFault` = the `title_2_id` INSERT raising a store-level IntegrityError that is
NOT a UNIQUE-constraint violation (the `raise e` branch of the handler). -/
structure ZimEntry where
  path : Str
  title : Str
  isRedirect : Bool
  redirectTarget : Nat
  index : Nat
  content : Str
  fetchFails : Bool
  redirectResolveFails : Bool
  decodeFails : Bool
  storeFault : Bool
deriving DecidableEq, Repr

/-- The `stats` dict of `convert_zim`. -/
structure Stats where
  total_entries : Nat
  special_files_skipped : Nat
  redirects_processed : Nat
  articles_processed : Nat
  binary_files_skipped : Nat
  other_entries_skipped : Nat
  processing_errors : Nat
deriving DecidableEq, Repr

def zeroStats : Stats := ⟨0, 0, 0, 0, 0, 0, 0⟩

/-- Running state of one conversion: the output database, the stats dict, and a
ghost counter of how many title-index assignment operations (the INSERTs into
`title_2_id` performed during entry processing) have been executed; the counter
is instrumentation only and influences nothing. -/
structure RunState where
  db : DB
  stats : Stats
  assigns : Nat
deriving DecidableEq, Repr

def initState : RunState := { db := emptyDB, stats := zeroStats, assigns := 0 }

/-- Extension allow-list of `is_binary_content` (image, media, font, other). -/
def binary_extension_list : List Str :=
  [str ".jpg", str ".jpeg", str ".png", str ".gif", str ".svg", str ".webp",
   str ".bmp", str ".ico", str ".tiff",
   str ".mp4", str ".webm", str ".ogg", str ".mp3", str ".wav", str ".pdf",
   str ".woff", str ".woff2", str ".ttf", str ".otf", str ".eot",
   str ".zip", str ".gz", str ".tar", str ".exe", str ".bin"]

/-- Known asset-hosting path fragments of `is_binary_content`. -/
def asset_path_fragments : List Str :=
  [str "images/", str "img/", str "static/", str "assets/", str "media/",
   str ".amazonaws.com/", str "upload", str "thumbnail", str "logo"]

/-- `is_binary_content` of zim_converter.py. -/
def is_binary_content (path : Str) : Bool :=
  let path_lower := strLower path
  binary_extension_list.any (fun ext => strEndsWith path_lower ext) ||
  asset_path_fragments.any (fun pat => strIsInfix pat path_lower)

/-- The title-index assignment of `process_article_entry`: the INSERT into
`title_2_id`, with its UNIQUE-conflict handler (SELECT the current owner,
and if it differs from the incoming id, UPDATE ... WHERE id = current owner). -/
def title_assign (idx : Nat) (t : Str) (db : DB) : DB :=
  match insertTitle2Id idx t db with
  | some db2 => db2
  | none =>
    match lookupTitle t db with
    | some cur_id => if cur_id ≠ idx then updateTitle2IdSetId idx cur_id db else db
    | none => db

/-- `process_article_entry(zim_entry, cursor, zim, stats)`. The returned Bool is
true when an exception propagates out of the function (a non-UNIQUE store
fault re-raised by the handler, or the content phase re-raising). The
`include_images`/`rwf` pair models the `_include_images` toggle and the effect
of `replace_img_and_css_html` on the document (whose per-image payload policy
is modelled separately by `get_image_link` below). -/
def process_article_entry (include_images : Bool) (rwf : Str → Str)
    (e : ZimEntry) (s : RunState) : RunState × Bool :=
  if e.storeFault then (s, true)
  else
    let s1 : RunState :=
      { s with db := title_assign e.index (strLower e.title) s.db,
               assigns := s.assigns + 1 }
    if e.title == [] || decide ((strTrim e.title).length < 2) then (s1, false)
    else if e.decodeFails then (s1, true)
    else if decide ((strTrim e.content).length < 100) then (s1, false)
    else
      let new_page_content := if include_images then rwf e.content else e.content
      let zstd_page_content := zstdCompress new_page_content
      ({ s1 with
          db := insertOrReplaceArticles e.index (strUnderscoreToSpace e.title)
                  zstd_page_content s1.db,
          stats := { s1.stats with
                      articles_processed := s1.stats.articles_processed + 1 } }, false)

/-- The body of the per-entry loop of `convert_zim`, including the generator-level
try/except (a failed fetch is counted as a processing error and the entry is
never yielded, so `total_entries` is not incremented for it). -/
def convert_zim_step (include_images : Bool) (rwf : Str → Str)
    (e : ZimEntry) (s : RunState) : RunState :=
  if e.fetchFails then
    { s with stats := { s.stats with
        processing_errors := s.stats.processing_errors + 1 } }
  else
    let s := { s with stats := { s.stats with
        total_entries := s.stats.total_entries + 1 } }
    if strStartsWith e.path (str "-") then
      { s with stats := { s.stats with
          special_files_skipped := s.stats.special_files_skipped + 1 } }
    else if e.isRedirect then
      if e.redirectResolveFails then
        { s with stats := { s.stats with
            processing_errors := s.stats.processing_errors + 1 } }
      else
        { s with
            db := insertOrReplaceTitle2Id e.redirectTarget (strLower e.title) s.db,
            stats := { s.stats with
                redirects_processed := s.stats.redirects_processed + 1 },
            assigns := s.assigns + 1 }
    else if strStartsWith e.path (str "A/") then
      let res := process_article_entry include_images rwf e s
      if res.2 then
        { res.1 with stats := { res.1.stats with
            processing_errors := res.1.stats.processing_errors + 1 } }
      else res.1
    else if !(strStartsWith e.path (str "A/")) && decide (2 < e.path.length) &&
            e.path.contains '/' then
      if is_binary_content e.path then
        { s with stats := { s.stats with
            binary_files_skipped := s.stats.binary_files_skipped + 1 } }
      else
        let res := process_article_entry include_images rwf e s
        if res.2 then
          { res.1 with stats := { res.1.stats with
              processing_errors := res.1.stats.processing_errors + 1 } }
        else res.1
    else
      { s with stats := { s.stats with
          other_entries_skipped := s.stats.other_entries_skipped + 1 } }

/-- The full entry loop of `convert_zim` over the archive's entries in order
(single-threaded `all_entry_gen` mode). -/
def convert_zim_run (include_images : Bool) (rwf : Str → Str)
    (es : List ZimEntry) (s : RunState) : RunState :=
  es.foldl (fun s e => convert_zim_step include_images rwf e s) s

/-- The welcome page template interpolated with the run statistics, as built by
`convert_zim` for the default Ebook entry. -/
def default_content (st : Stats) : Str :=
  str "<html><head><title>Welcome to WikiReader</title></head><body>" ++
  str "<h1>Welcome to WikiReader</h1>" ++
  str "<p>This database contains articles converted from a ZIM file.</p>" ++
  str "<p>Use the search function to find articles.</p>" ++
  str "<p>Database statistics:</p><ul>" ++
  str "<li>Total articles: " ++ str (toString st.articles_processed) ++ str "</li>" ++
  str "<li>Total entries processed: " ++ str (toString st.total_entries) ++ str "</li>" ++
  str "<li>Binary files skipped: " ++ str (toString st.binary_files_skipped) ++ str "</li>" ++
  str "</ul></body></html>"

/-- The default-Ebook step at the end of `convert_zim`: when no article titled
Ebook exists, insert the synthetic article row (id 999999) and repoint the
lowercased key in `title_2_id` to it. -/
def add_default_ebook (s : RunState) : RunState :=
  if (s.db.articles.filter (fun r => r.title == str "Ebook")).length == 0 then
    let compressed_content := zstdCompress (default_content s.stats)
    let db2 := insertOrReplaceArticles 999999 (str "Ebook") compressed_content s.db
    { s with db := insertOrReplaceTitle2Id 999999 (str "ebook") db2 }
  else s

/-- Whole-run `convert_zim`: the entry loop from a fresh database, followed by the
default-Ebook step. -/
def convert_zim (include_images : Bool) (rwf : Str → Str)
    (es : List ZimEntry) : RunState :=
  add_default_ebook (convert_zim_run include_images rwf es initState)

/-- The five dispositions of the per-entry branch chain of `convert_zim`. -/
inductive Disposition
  | Special
  | Redirect
  | Article
  | Binary
  | Other
deriving DecidableEq, Repr

/-- The disposition assigned to a (successfully fetched) entry by the branch chain. -/
def classifyDisp (e : ZimEntry) : Disposition :=
  if strStartsWith e.path (str "-") then .Special
  else if e.isRedirect then .Redirect
  else if strStartsWith e.path (str "A/") then .Article
  else if !(strStartsWith e.path (str "A/")) && decide (2 < e.path.length) &&
          e.path.contains '/' then
    if is_binary_content e.path then .Binary else .Article
  else .Other

/-- Sum of the six disposition/outcome counters (everything except `total_entries`). -/
def sumDisp (st : Stats) : Nat :=
  st.special_files_skipped + st.redirects_processed + st.articles_processed +
  st.binary_files_skipped + st.other_entries_skipped + st.processing_errors

/-- The entry takes one of the two branches that call `process_article_entry`. -/
def article_path (e : ZimEntry) : Bool :=
  strStartsWith e.path (str "A/") ||
  (!(strStartsWith e.path (str "A/")) && decide (2 < e.path.length) &&
   e.path.contains '/' && !is_binary_content e.path)

/-- The entry reaches `process_article_entry` (fetched, not special, not a redirect,
on an article path). -/
def reaches_process (e : ZimEntry) : Bool :=
  !e.fetchFails && !(strStartsWith e.path (str "-")) && !e.isRedirect && article_path e

/-- The entry reaches the title-index INSERT and the INSERT does not fault. -/
def reaches_assign (e : ZimEntry) : Bool :=
  reaches_process e && !e.storeFault

/-- The filter verdict of the content phase of `process_article_entry`: true when
the entry returns early through one of the two length filters. -/
def article_filtered (e : ZimEntry) : Bool :=
  if e.title == [] || decide ((strTrim e.title).length < 2) then true
  else if e.decodeFails then false
  else if decide ((strTrim e.content).length < 100) then true
  else false

/-- The entry is seen by the loop, assigned the Article disposition, and then
dropped by the filters: it bumps `total_entries` but no other counter. -/
def counted_nowhere (e : ZimEntry) : Bool :=
  reaches_assign e && article_filtered e

/-- Entries dropped by the generator-level try/except: counted as errors but
never seen by the loop. -/
def countFetchFails (es : List ZimEntry) : Nat :=
  (es.filter (fun e => e.fetchFails)).length

def countFiltered (es : List ZimEntry) : Nat := (es.filter counted_nowhere).length

/-- The entry is a redirect whose resolution succeeds: exactly the entries that
bump `redirects_processed`. -/
def redirect_processed (e : ZimEntry) : Bool :=
  !e.fetchFails && !(strStartsWith e.path (str "-")) && e.isRedirect &&
  !e.redirectResolveFails

/-- The id an entry maps its lowercased title to: the redirect target's index for a
redirect, the entry's own index for an article. -/
def assigned_id (e : ZimEntry) : Nat := if e.isRedirect then e.redirectTarget else e.index

/-- The entry is fetched, not special, and completes its title-mapping write: a
redirect whose resolution succeeds, or an article-path entry without a store fault. -/
def processed_ok (e : ZimEntry) : Bool :=
  !e.fetchFails && !(strStartsWith e.path (str "-")) &&
  ((e.isRedirect && !e.redirectResolveFails) ||
   (!e.isRedirect && article_path e && !e.storeFault))

/-- Concrete archive entry: a redirect titled Dog resolving to entry index 5. -/
def redirDog : ZimEntry :=
  { path := str "r", title := str "Dog", isRedirect := true, redirectTarget := 5,
    index := 0, content := [], fetchFails := false, redirectResolveFails := false,
    decodeFails := false, storeFault := false }

/-- Concrete archive entry: an article-namespace entry titled Cat at index 5
(its short body is rejected by the content filter, which never blocks the
title-index write). -/
def artCat5 : ZimEntry :=
  { path := str "A/c", title := str "Cat", isRedirect := false, redirectTarget := 0,
    index := 5, content := [], fetchFails := false, redirectResolveFails := false,
    decodeFails := false, storeFault := false }

/-- A second article also titled Cat, at index 7. -/
def artCat7 : ZimEntry := { artCat5 with index := 7 }

/-- An article-classified entry whose title passes the title filter but whose
body is below the 100-character content threshold. -/
def artStub : ZimEntry :=
  { path := str "A/s", title := str "ab", isRedirect := false, redirectTarget := 0,
    index := 3, content := str "tiny", fetchFails := false,
    redirectResolveFails := false, decodeFails := false, storeFault := false }

/-- An article-classified entry whose title-index INSERT raises a non-UNIQUE
store-level IntegrityError. -/
def artFault : ZimEntry := { artStub with storeFault := true }

/-- A database state in which id 5 owns two lowercased titles. -/
def dbTwoTitles : DB :=
  { articles := [], title_2_id := [⟨5, str "dog"⟩, ⟨5, str "cat"⟩] }

/-- Concrete redirect mapping title t to entry index 1. -/
def redirT1 : ZimEntry :=
  { path := str "r", title := str "t", isRedirect := true, redirectTarget := 1,
    index := 0, content := [], fetchFails := false, redirectResolveFails := false,
    decodeFails := false, storeFault := false }

/-- Concrete redirect mapping the same title t to entry index 2. -/
def redirT2 : ZimEntry := { redirT1 with redirectTarget := 2 }

/-- The store-level uniqueness invariant of §8 of the spec: lowercased title keys are
unique in `title_2_id`; ids and titles are each unique in `articles`. -/
def Inv (db : DB) : Prop :=
  (db.title_2_id.map (fun r => r.title_lower_case)).Nodup ∧
  (db.articles.map (fun r => r.id)).Nodup ∧
  (db.articles.map (fun r => r.title)).Nodup

instance (db : DB) : Decidable (Inv db) := by unfold Inv; infer_instance

/-- `MAX_IMAGE_SIZE = 300 * 1024`. -/
def MAX_IMAGE_SIZE : Nat := 300 * 1024

/-- `MAX_COMPRESSED_IMAGE_SIZE = 15 * 1024`. -/
def MAX_COMPRESSED_IMAGE_SIZE : Nat := 15 * 1024

/-- Length of `base64.b64encode(b)` for an input of n bytes (4 output bytes per
3-byte group, padded). -/
def b64Len (n : Nat) : Nat := 4 * ((n + 2) / 3)

/-- Outcome of the `subprocess.run` call inside `compress_image_with_imagemagick`,
tracking only what the function inspects: the return code and the size of the
output file, or a timeout / other exception. -/
inductive SubprocessOutcome
  | completed (returncode : Nat) (outputLen : Nat)
  | timedOut
  | raisedExn
deriving DecidableEq, Repr

/-- `compress_image_with_imagemagick`, at the level of byte counts: returns the
size of the recompressed data when the convert call succeeds and the result is
strictly under `MAX_COMPRESSED_IMAGE_SIZE`; returns none (the Python
`None, None`) on a nonzero exit, an oversized result, a timeout, or any other
exception. -/
def compress_image_with_imagemagick (o : SubprocessOutcome) : Option Nat :=
  match o with
  | .completed returncode outputLen =>
      if returncode == 0 then
        if outputLen < MAX_COMPRESSED_IMAGE_SIZE then some outputLen else none
      else none
  | .timedOut => none
  | .raisedExn => none

/-- Result of `get_image_link` for one image reference: either a data-URI payload
is substituted (carrying the base64-encoded length, the raw byte length that
was encoded, and whether the bytes came from recompression), or the reference
is left untouched (the Python `None, 0`). -/
inductive ImgLinkResult
  | inlined (encodedLen rawLen : Nat) (fromCompressed : Bool)
  | untouched
deriving DecidableEq, Repr

/-- `get_image_link(link, zim, compress_images)`, at the level of byte counts.
`found` models `zim.get_entry_by_path` succeeding (KeyError otherwise);
`imagemagickAvailable` models the `_imagemagick_available` attribute probe;
`sub` is the ImageMagick subprocess outcome. The Python `if compressed_data:`
is a truthiness test, so a successful but empty recompression result (some 0)
falls through to the original-size path exactly like a failure. -/
def get_image_link (originalSize : Nat) (found : Bool)
    (compress_images : Bool) (imagemagickAvailable : Bool)
    (sub : SubprocessOutcome) : ImgLinkResult :=
  if !found then .untouched
  else
    let compressed : Option Nat :=
      if compress_images && imagemagickAvailable &&
         decide (originalSize > MAX_COMPRESSED_IMAGE_SIZE) then
        compress_image_with_imagemagick sub
      else none
    match compressed with
    | some n =>
        if n != 0 then .inlined (b64Len n) n true
        else if decide (originalSize > MAX_IMAGE_SIZE) then .untouched
        else .inlined (b64Len originalSize) originalSize false
    | none =>
        if decide (originalSize > MAX_IMAGE_SIZE) then .untouched
        else .inlined (b64Len originalSize) originalSize false

end ZimConv

namespace PageViews

/-- `MIN_MONTLY_PAGE_COUNT = 500`. -/
def MIN_MONTLY_PAGE_COUNT : Nat := 500

/-- One line of the decompressed pageview feed, after splitting on spaces:
`numParts` is `len(line_parts)`, the other fields are the extracted columns
(`domain`, `page_name`, `page_wiki_id`, and `int(line_parts[-2])`). -/
structure PvLine where
  numParts : Nat
  domain : Str
  page_name : Str
  page_wiki_id : Str
  page_count : Nat
deriving DecidableEq, Repr

/-- Row of the `pageviews` table: `wiki_domain_id TEXT PRIMARY KEY`. -/
structure PvRow where
  wiki_domain_id : Str
  wiki_id : Str
  domain : Str
  view_count : Nat
deriving DecidableEq, Repr

/-- Row of the `title_2_wiki_domain_id` table: `title TEXT PRIMARY KEY`. -/
structure PvTitleRow where
  wiki_domain_id : Str
  title : Str
deriving DecidableEq, Repr

structure PvDB where
  pageviews : List PvRow
  title_2_wiki_domain_id : List PvTitleRow
deriving DecidableEq, Repr

def emptyPvDB : PvDB := { pageviews := [], title_2_wiki_domain_id := [] }

/-- The in-memory `pageview_stats` nested dict, flattened to (domain, id) keys. -/
abbrev PvStats := List ((Str × Str) × Nat)

def statsLookup (d i : Str) (st : PvStats) : Option Nat :=
  (st.find? (fun p => p.1 == (d, i))).map (fun p => p.2)

/-- The dict bumps of the loop body: create the nested entries at 0 when missing,
then add `page_count`. -/
def statsBump (d i : Str) (c : Nat) (st : PvStats) : PvStats :=
  match statsLookup d i st with
  | some _ => st.map (fun p => if p.1 == (d, i) then (p.1, p.2 + c) else p)
  | none => st ++ [((d, i), c)]

/-- `INSERT OR REPLACE INTO pageviews VALUES(?, ?, ?, ?)`. -/
def insertOrReplacePv (key wikiId dom : Str) (total : Nat) (db : PvDB) : PvDB :=
  { db with pageviews :=
      db.pageviews.filter (fun r => !(r.wiki_domain_id == key)) ++
        [⟨key, wikiId, dom, total⟩] }

/-- `INSERT OR REPLACE INTO title_2_wiki_domain_id VALUES(?, ?)`. -/
def insertOrReplacePvTitle (key title : Str) (db : PvDB) : PvDB :=
  { db with title_2_wiki_domain_id :=
      db.title_2_wiki_domain_id.filter (fun r => !(r.title == title)) ++ [⟨key, title⟩] }

/-- A line passes every skip condition of the loop: at least 4 parts, a non-null
wiki id, at least the monthly threshold, and an allow-listed domain. -/
def qualifies (valid_domains : List Str) (l : PvLine) : Bool :=
  !(decide (l.numParts < 4)) && !(l.page_wiki_id == str "null") &&
  !(decide (l.page_count < MIN_MONTLY_PAGE_COUNT)) && valid_domains.contains l.domain

structure PvState where
  stats : PvStats
  db : PvDB
deriving DecidableEq, Repr

/-- The loop body of `parse_pageviews_xml_url` for one feed line. -/
def parse_pageviews_step (valid_domains : List Str) (l : PvLine) (s : PvState) : PvState :=
  if l.numParts < 4 then s
  else if l.page_wiki_id == str "null" then s
  else if l.page_count < MIN_MONTLY_PAGE_COUNT then s
  else if !(valid_domains.contains l.domain) then s
  else
    let stats := statsBump l.domain l.page_wiki_id l.page_count s.stats
    let total_page_count := (statsLookup l.domain l.page_wiki_id stats).getD 0
    let wiki_domain_id := l.domain ++ str "-" ++ l.page_wiki_id
    { stats := stats,
      db := insertOrReplacePvTitle wiki_domain_id l.page_name
              (insertOrReplacePv wiki_domain_id l.page_wiki_id l.domain
                 total_page_count s.db) }

/-- `parse_pageviews_xml_url(url, con, pageview_stats, valid_domains)`: a fold of
the loop body over the feed lines, from a caller-supplied stats dict and
database. -/
def parse_pageviews_xml_url (valid_domains : List Str) (lines : List PvLine)
    (stats : PvStats) (db : PvDB) : PvState :=
  lines.foldl (fun s l => parse_pageviews_step valid_domains l s)
    { stats := stats, db := db }

/-- One process run of the utility as launched by `__main__`: a fresh, empty
`pageview_stats` dict, against a possibly pre-existing database. -/
def pv_run (valid_domains : List Str) (lines : List PvLine) (db : PvDB) : PvState :=
  parse_pageviews_xml_url valid_domains lines [] db

/-- Stored cumulative count for a composite key. -/
def storedCount (key : Str) (db : PvDB) : Option Nat :=
  (db.pageviews.find? (fun r => r.wiki_domain_id == key)).map (fun r => r.view_count)

/-- A line qualifies and carries exactly the (domain, id) pair. -/
def qualPair (valid_domains : List Str) (d i : Str) (l : PvLine) : Bool :=
  qualifies valid_domains l && l.domain == d && l.page_wiki_id == i

/-- Sum of the qualifying view counts of one (domain, id) pair over a line list. -/
def qualSum (valid_domains : List Str) (d i : Str) (lines : List PvLine) : Nat :=
  (lines.filter (qualPair valid_domains d i)).foldl (fun acc l => acc + l.page_count) 0

/-- A concrete qualifying feed line: 500 views of page id 7 on en.wikipedia. -/
def pvLine500 : PvLine :=
  { numParts := 6, domain := str "en.wikipedia", page_name := str "p",
    page_wiki_id := str "7", page_count := 500 }

/-- The same page with 600 views, as reported by a later month's feed. -/
def pvLine600 : PvLine := { pvLine500 with page_count := 600 }

end PageViews

namespace ZimConv

theorem lookupTitle_insertOrReplaceArticles (t : Str) (idx : Nat) (ti : Str)
    (b : ZBody) (db : DB) :
    lookupTitle t (insertOrReplaceArticles idx ti b db) = lookupTitle t db := rfl

theorem lookupTitle_congr {db1 db2 : DB} (h : db1.title_2_id = db2.title_2_id)
    (t : Str) : lookupTitle t db1 = lookupTitle t db2 := by
  unfold lookupTitle
  rw [h]

theorem lookupTitle_update (t2 : Str) (newId oldId : Nat) (db : DB) :
    lookupTitle t2 (updateTitle2IdSetId newId oldId db) =
      (lookupTitle t2 db).map (fun v => if v = oldId then newId else v) := by
  have hp : ((fun r : TitleRow => r.title_lower_case == t2) ∘
      (fun r : TitleRow => if r.id = oldId then { r with id := newId } else r)) =
      (fun r : TitleRow => r.title_lower_case == t2) := by
    funext r
    by_cases h : r.id = oldId <;> simp [h]
  simp only [lookupTitle, updateTitle2IdSetId, List.find?_map, hp]
  cases hf : db.title_2_id.find? (fun r => r.title_lower_case == t2) with
  | none => rfl
  | some r => by_cases h : r.id = oldId <;> simp [h]

theorem find?_eq_none_of_any_eq_false {α : Type} {p : α → Bool} {l : List α}
    (h : l.any p = false) : l.find? p = none := by
  rw [List.find?_eq_none]
  intro x hx hpx
  have h2 := List.any_eq_true.mpr ⟨x, hx, hpx⟩
  rw [h] at h2
  exact Bool.false_ne_true h2

theorem lookupTitle_insertOrReplaceTitle2Id_self (idx : Nat) (t : Str) (db : DB) :
    lookupTitle t (insertOrReplaceTitle2Id idx t db) = some idx := by
  have h1 : (db.title_2_id.filter (fun r => !(r.title_lower_case == t))).find?
      (fun r => r.title_lower_case == t) = none := by
    rw [List.find?_eq_none]
    intro x hx
    rcases List.mem_filter.mp hx with ⟨_, hbx⟩
    simp only [Bool.not_eq_true', beq_eq_false_iff_ne, ne_eq] at hbx
    simp [hbx]
  simp [lookupTitle, insertOrReplaceTitle2Id, List.find?_append, h1]

theorem title_assign_lookup_self (idx : Nat) (t : Str) (db : DB) :
    lookupTitle t (title_assign idx t db) = some idx := by
  unfold title_assign insertTitle2Id
  by_cases hany : db.title_2_id.any (fun r => r.title_lower_case == t)
  · simp only [hany, if_true]
    cases hcur : lookupTitle t db with
    | none =>
      exfalso
      rcases List.any_eq_true.mp hany with ⟨x, hx, hpx⟩
      unfold lookupTitle at hcur
      rcases Option.map_eq_none.mp hcur with hfind
      rw [List.find?_eq_none] at hfind
      exact hfind x hx hpx
    | some cur =>
      by_cases hne : cur = idx
      · subst hne
        simp [hcur]
      · simp only [hcur, ne_eq, hne, not_false_eq_true, if_true]
        rw [lookupTitle_update, hcur]
        simp
  · simp only [hany, if_false]
    have hfind : db.title_2_id.find? (fun r => r.title_lower_case == t) = none :=
      find?_eq_none_of_any_eq_false (Bool.not_eq_true _ ▸ Bool.of_not_eq_true hany)
    simp [lookupTitle, List.find?_append, hfind]

theorem pae_title_2_id (inc : Bool) (rwf : Str → Str) (e : ZimEntry) (s : RunState)
    (h : e.storeFault = false) :
    ((process_article_entry inc rwf e s).1).db.title_2_id =
      (title_assign e.index (strLower e.title) s.db).title_2_id := by
  unfold process_article_entry
  simp only [h, Bool.false_eq_true, if_false]
  split
  · rfl
  · split
    · rfl
    · split
      · rfl
      · rfl

theorem pae_lookup_self (inc : Bool) (rwf : Str → Str) (e : ZimEntry) (s : RunState)
    (h : e.storeFault = false) :
    lookupTitle (strLower e.title) ((process_article_entry inc rwf e s).1.db) =
      some e.index := by
  rw [lookupTitle_congr (pae_title_2_id inc rwf e s h)]
  exact title_assign_lookup_self e.index (strLower e.title) s.db

end ZimConv

namespace ZimConv

/-- C1: refuted as stated. In a run where id 5 first acquires the title key dog
(via a redirect) and the title key cat (via an article at index 5), the
conflict repoint triggered by a second article titled Cat at index 7 also
rewrites the mapping for dog — `UPDATE title_2_id SET id = ? WHERE id = ?`
keys on the owning id, not on the conflicting title — so a lowercased title
other than the conflicting one does not keep the id it mapped to. -/
theorem C1_counterexample :
    lookupTitle (str "dog")
        ((convert_zim_run false id [redirDog, artCat5, artCat7] initState).db) = some 7 ∧
    lookupTitle (str "dog")
        ((convert_zim_run false id [redirDog, artCat5, artCat7] initState).db) ≠ some 5 := by
  decide

/-- C1 (amended): when the incoming (id, lowercased title) pair conflicts and the
title's current owner `cur` differs from the incoming id, the repoint rewrites
exactly the mappings that point at `cur`: after `process_article_entry`, every
lowercased title maps to the incoming id if it previously mapped to `cur`, and
to its previous id otherwise. -/
theorem C1_repoint_frame (inc : Bool) (rwf : Str → Str) (e : ZimEntry) (s : RunState)
    (cur : Nat) (hsf : e.storeFault = false)
    (hcur : lookupTitle (strLower e.title) s.db = some cur) (hne : cur ≠ e.index)
    (t2 : Str) :
    lookupTitle t2 ((process_article_entry inc rwf e s).1.db) =
      (lookupTitle t2 s.db).map (fun v => if v = cur then e.index else v) := by
  rw [lookupTitle_congr (pae_title_2_id inc rwf e s hsf)]
  have hany : s.db.title_2_id.any
      (fun r => r.title_lower_case == strLower e.title) = true := by
    unfold lookupTitle at hcur
    rcases Option.map_eq_some'.mp hcur with ⟨r, hfind, _⟩
    have hmem := List.mem_of_find?_eq_some hfind
    have hpr := List.find?_some hfind
    exact List.any_eq_true.mpr ⟨r, hmem, hpr⟩
  unfold title_assign insertTitle2Id
  simp only [hany, if_true]
  rw [hcur]
  simp only [ne_eq, hne, not_false_eq_true, if_true]
  exact lookupTitle_update t2 e.index cur s.db

/-- Witness for C1_repoint_frame: the article Cat at index 7 against a store in
which id 5 owns both cat and dog; every title owned by 5 is repointed to 7. -/
theorem C1_repoint_frame_witness :
    lookupTitle (str "dog")
        ((process_article_entry false id artCat7
            { db := dbTwoTitles, stats := zeroStats, assigns := 0 }).1.db) =
      (lookupTitle (str "dog") dbTwoTitles).map (fun v => if v = 5 then 7 else v) :=
  C1_repoint_frame false id artCat7
    { db := dbTwoTitles, stats := zeroStats, assigns := 0 } 5 (by decide) (by decide)
    (by decide) (str "dog")

/-- After processing any entry that completes its title-mapping write, the title
index maps the entry's lowercased title to its assigned id, whatever the prior
state was. -/
theorem step_lookup_assigned (inc : Bool) (rwf : Str → Str) (e : ZimEntry)
    (s : RunState) (h : processed_ok e = true) :
    lookupTitle (strLower e.title) ((convert_zim_step inc rwf e s).db) =
      some (assigned_id e) := by
  simp only [processed_ok, Bool.and_eq_true, Bool.or_eq_true, Bool.not_eq_true'] at h
  obtain ⟨⟨hfe, hsp⟩, hdisj⟩ := h
  unfold convert_zim_step
  simp only [hfe, Bool.false_eq_true, if_false, hsp]
  rcases hdisj with ⟨hr, hrf⟩ | ⟨⟨hr, hap⟩, hsf⟩
  · simp only [hr, if_true, hrf, Bool.false_eq_true, if_false]
    simp only [assigned_id, hr, if_true]
    exact lookupTitle_insertOrReplaceTitle2Id_self _ _ _
  · simp only [hr, Bool.false_eq_true, if_false]
    have hgoal : assigned_id e = e.index := by
      simp [assigned_id, hr]
    rw [hgoal]
    simp only [article_path, Bool.or_eq_true, Bool.and_eq_true, Bool.not_eq_true'] at hap
    rcases hap with hA | ⟨⟨⟨hnA, hlen⟩, hsl⟩, hbin⟩
    · simp only [hA, if_true]
      split
      · exact pae_lookup_self inc rwf e _ hsf
      · exact pae_lookup_self inc rwf e _ hsf
    · simp only [hnA, Bool.false_eq_true, if_false, hlen, hsl, Bool.not_false,
        Bool.and_self, if_true, hbin]
      split
      · exact pae_lookup_self inc rwf e _ hsf
      · exact pae_lookup_self inc rwf e _ hsf

/-- C4: last-write-wins in single-threaded mode. For entries A and B mapping the
same lowercased title, processed in the order A then B (each a successfully
processed redirect or an article-classified entry), immediately after B the
title index maps that lowercased title to B's assigned id. -/
theorem C4_last_write_wins (inc : Bool) (rwf : Str → Str) (pre mid : List ZimEntry)
    (A B : ZimEntry) (hT : strLower A.title = strLower B.title)
    (hA : processed_ok A = true) (hB : processed_ok B = true) :
    lookupTitle (strLower B.title)
        ((convert_zim_run inc rwf (pre ++ A :: (mid ++ [B])) initState).db) =
      some (assigned_id B) := by
  have hsplit : pre ++ A :: (mid ++ [B]) = (pre ++ A :: mid) ++ [B] := by simp
  rw [hsplit]
  unfold convert_zim_run
  rw [List.foldl_append]
  simp only [List.foldl_cons, List.foldl_nil]
  exact step_lookup_assigned inc rwf B _ hB

/-- Witness for C4_last_write_wins: two redirects sharing the title t, resolving
to indices 1 and 2; after the second, t maps to 2. -/
theorem C4_last_write_wins_witness :
    lookupTitle (strLower redirT2.title)
        ((convert_zim_run false id ([] ++ redirT1 :: ([] ++ [redirT2])) initState).db) =
      some (assigned_id redirT2) :=
  C4_last_write_wins false id [] [] redirT1 redirT2 (by decide) (by decide) (by decide)

end ZimConv

namespace ZimConv

theorem pae_storeFault (inc : Bool) (rwf : Str → Str) (e : ZimEntry) (s : RunState)
    (h : e.storeFault = true) : process_article_entry inc rwf e s = (s, true) := by
  unfold process_article_entry
  simp [h]

theorem pae_stats_char (inc : Bool) (rwf : Str → Str) (e : ZimEntry) (s : RunState)
    (h : e.storeFault = false) :
    (process_article_entry inc rwf e s).1.stats =
      (if (article_filtered e || e.decodeFails) = true then s.stats
       else { s.stats with articles_processed := s.stats.articles_processed + 1 }) ∧
    (process_article_entry inc rwf e s).2 = (!article_filtered e && e.decodeFails) := by
  unfold process_article_entry article_filtered
  simp only [h, Bool.false_eq_true, if_false]
  cases h1 : (e.title == [] || decide ((strTrim e.title).length < 2)) with
  | true => simp [h1]
  | false =>
    cases h2 : e.decodeFails with
    | true => simp [h1, h2]
    | false =>
      cases h3 : decide ((strTrim e.content).length < 100) with
      | true => simp [h1, h2, h3]
      | false => simp [h1, h2, h3]

theorem pae_assigns_char (inc : Bool) (rwf : Str → Str) (e : ZimEntry) (s : RunState)
    (h : e.storeFault = false) :
    (process_article_entry inc rwf e s).1.assigns = s.assigns + 1 := by
  unfold process_article_entry
  simp only [h, Bool.false_eq_true, if_false]
  split
  · rfl
  · split
    · rfl
    · split
      · rfl
      · rfl

end ZimConv

namespace ZimConv

theorem pae_redirects_char (inc : Bool) (rwf : Str → Str) (e : ZimEntry) (s : RunState) :
    (process_article_entry inc rwf e s).1.stats.redirects_processed =
      s.stats.redirects_processed := by
  unfold process_article_entry
  split
  · rfl
  · split
    · rfl
    · split
      · rfl
      · split
        · rfl
        · rfl

theorem article_out_stats (inc : Bool) (rwf : Str → Str) (e : ZimEntry) (s2 : RunState) :
    (if (process_article_entry inc rwf e s2).2 then
        { (process_article_entry inc rwf e s2).1 with stats :=
            { (process_article_entry inc rwf e s2).1.stats with processing_errors :=
                (process_article_entry inc rwf e s2).1.stats.processing_errors + 1 } }
      else (process_article_entry inc rwf e s2).1).stats.total_entries =
      s2.stats.total_entries ∧
    sumDisp (if (process_article_entry inc rwf e s2).2 then
        { (process_article_entry inc rwf e s2).1 with stats :=
            { (process_article_entry inc rwf e s2).1.stats with processing_errors :=
                (process_article_entry inc rwf e s2).1.stats.processing_errors + 1 } }
      else (process_article_entry inc rwf e s2).1).stats =
      sumDisp s2.stats + (if (!e.storeFault && article_filtered e) = true then 0 else 1) := by
  cases hsf : e.storeFault with
  | true =>
    rw [pae_storeFault inc rwf e s2 hsf]
    constructor
    · rfl
    · simp [sumDisp]
      omega
  | false =>
    obtain ⟨hstats, hflag⟩ := pae_stats_char inc rwf e s2 hsf
    rw [hflag]
    cases hfl : article_filtered e with
    | true =>
      have hs : (process_article_entry inc rwf e s2).1.stats = s2.stats := by
        rw [hstats]
        simp [hfl]
      refine ⟨?_, ?_⟩
      · simp [hs]
      · simp [hs]
    | false =>
      cases hdf : e.decodeFails with
      | true =>
        have hs : (process_article_entry inc rwf e s2).1.stats = s2.stats := by
          rw [hstats]
          simp [hfl, hdf]
        refine ⟨?_, ?_⟩
        · simp [hs]
        · simp [hs, sumDisp]
          omega
      | false =>
        have hs : (process_article_entry inc rwf e s2).1.stats =
            { s2.stats with articles_processed := s2.stats.articles_processed + 1 } := by
          rw [hstats]
          simp [hfl, hdf]
        refine ⟨?_, ?_⟩
        · simp [hs]
        · simp [hs, sumDisp]
          omega

theorem article_out_assigns (inc : Bool) (rwf : Str → Str) (e : ZimEntry) (s2 : RunState) :
    (if (process_article_entry inc rwf e s2).2 then
        { (process_article_entry inc rwf e s2).1 with stats :=
            { (process_article_entry inc rwf e s2).1.stats with processing_errors :=
                (process_article_entry inc rwf e s2).1.stats.processing_errors + 1 } }
      else (process_article_entry inc rwf e s2).1).assigns =
      s2.assigns + (if e.storeFault = true then 0 else 1) ∧
    (if (process_article_entry inc rwf e s2).2 then
        { (process_article_entry inc rwf e s2).1 with stats :=
            { (process_article_entry inc rwf e s2).1.stats with processing_errors :=
                (process_article_entry inc rwf e s2).1.stats.processing_errors + 1 } }
      else (process_article_entry inc rwf e s2).1).stats.redirects_processed =
      s2.stats.redirects_processed := by
  cases hsf : e.storeFault with
  | true =>
    rw [pae_storeFault inc rwf e s2 hsf]
    simp [hsf]
  | false =>
    have ha := pae_assigns_char inc rwf e s2 hsf
    have hred := pae_redirects_char inc rwf e s2
    constructor
    · simp only [hsf, Bool.false_eq_true, if_false]
      split
      · exact ha
      · exact ha
    · split
      · exact hred
      · exact hred

end ZimConv

namespace ZimConv

theorem step_stats (inc : Bool) (rwf : Str → Str) (e : ZimEntry) (s : RunState)
    (hfe : e.fetchFails = false) :
    (convert_zim_step inc rwf e s).stats.total_entries = s.stats.total_entries + 1 ∧
    sumDisp (convert_zim_step inc rwf e s).stats =
      sumDisp s.stats + (if counted_nowhere e = true then 0 else 1) := by
  unfold convert_zim_step
  simp only [hfe, Bool.false_eq_true, if_false]
  cases hsp : strStartsWith e.path (str "-") with
  | true =>
    have hcn : counted_nowhere e = false := by
      simp [counted_nowhere, reaches_assign, reaches_process, hsp]
    simp only [hsp, if_true, hcn, Bool.false_eq_true, if_false]
    refine ⟨by simp, ?_⟩
    simp [sumDisp]
    omega
  | false =>
    simp only [hsp, Bool.false_eq_true, if_false]
    cases hr : e.isRedirect with
    | true =>
      have hcn : counted_nowhere e = false := by
        simp [counted_nowhere, reaches_assign, reaches_process, hr]
      simp only [hr, if_true, hcn, Bool.false_eq_true, if_false]
      cases hrf : e.redirectResolveFails with
      | true =>
        simp only [hrf, if_true]
        refine ⟨by simp, ?_⟩
        simp [sumDisp]
        omega
      | false =>
        simp only [hrf, Bool.false_eq_true, if_false]
        refine ⟨by simp, ?_⟩
        simp [sumDisp]
        omega
    | false =>
      simp only [hr, Bool.false_eq_true, if_false]
      cases hA : strStartsWith e.path (str "A/") with
      | true =>
        have hreach : reaches_process e = true := by
          simp [reaches_process, article_path, hfe, hsp, hr, hA]
        have hcn : counted_nowhere e = (!e.storeFault && article_filtered e) := by
          simp [counted_nowhere, reaches_assign, hreach]
        simp only [hA, if_true]
        rw [hcn]
        have h2 := article_out_stats inc rwf e
          { s with stats := { s.stats with total_entries := s.stats.total_entries + 1 } }
        exact ⟨h2.1, h2.2⟩
      | false =>
        simp only [hA, Bool.false_eq_true, if_false, Bool.not_false, Bool.true_and]
        cases hlen : decide (2 < e.path.length) with
        | false =>
          have hcn : counted_nowhere e = false := by
            simp [counted_nowhere, reaches_assign, reaches_process, article_path,
              hA, hlen]
          simp only [hlen, Bool.false_and, Bool.false_eq_true, if_false, hcn]
          refine ⟨by simp, ?_⟩
          simp [sumDisp]
          omega
        | true =>
          simp only [hlen, Bool.true_and]
          cases hsl : e.path.contains '/' with
          | false =>
            have hsl2 : ¬ ('/' ∈ e.path) := by simpa using hsl
            have hcn : counted_nowhere e = false := by
              simp [counted_nowhere, reaches_assign, reaches_process, article_path,
                hA, hlen, hsl2]
            simp only [hsl, Bool.false_eq_true, if_false, hcn]
            refine ⟨by simp, ?_⟩
            simp [sumDisp]
            omega
          | true =>
            have hsl2 : '/' ∈ e.path := by simpa using hsl
            simp only [hsl, if_true]
            cases hbin : is_binary_content e.path with
            | true =>
              have hcn : counted_nowhere e = false := by
                simp [counted_nowhere, reaches_assign, reaches_process, article_path,
                  hA, hlen, hsl2, hbin]
              simp only [hbin, if_true, hcn, Bool.false_eq_true, if_false]
              refine ⟨by simp, ?_⟩
              simp [sumDisp]
              omega
            | false =>
              have hreach : reaches_process e = true := by
                simp [reaches_process, article_path, hfe, hsp, hr, hA, hlen, hsl2, hbin]
              have hcn : counted_nowhere e = (!e.storeFault && article_filtered e) := by
                simp [counted_nowhere, reaches_assign, hreach]
              simp only [hbin, Bool.false_eq_true, if_false]
              rw [hcn]
              have h2 := article_out_stats inc rwf e
                { s with stats := { s.stats with
                    total_entries := s.stats.total_entries + 1 } }
              exact ⟨h2.1, h2.2⟩

theorem countFiltered_cons (e : ZimEntry) (tl : List ZimEntry) :
    countFiltered (e :: tl) =
      countFiltered tl + (if counted_nowhere e = true then 1 else 0) := by
  cases h : counted_nowhere e <;> simp [countFiltered, List.filter_cons, h]

theorem countFetchFails_cons (e : ZimEntry) (tl : List ZimEntry) :
    countFetchFails (e :: tl) =
      countFetchFails tl + (if e.fetchFails = true then 1 else 0) := by
  cases h : e.fetchFails <;> simp [countFetchFails, List.filter_cons, h]

theorem step_fetchFail (inc : Bool) (rwf : Str → Str) (e : ZimEntry) (s : RunState)
    (hfe : e.fetchFails = true) :
    convert_zim_step inc rwf e s =
      { s with stats := { s.stats with
          processing_errors := s.stats.processing_errors + 1 } } := by
  unfold convert_zim_step
  simp [hfe]

theorem run_sum_eq (inc : Bool) (rwf : Str → Str) :
    ∀ (es : List ZimEntry) (s : RunState),
      sumDisp (convert_zim_run inc rwf es s).stats + countFiltered es +
        s.stats.total_entries =
      sumDisp s.stats + countFetchFails es +
        (convert_zim_run inc rwf es s).stats.total_entries := by
  intro es
  induction es with
  | nil =>
    intro s
    simp [convert_zim_run, countFiltered, countFetchFails]
  | cons e tl ih =>
    intro s
    have hrun : convert_zim_run inc rwf (e :: tl) s =
        convert_zim_run inc rwf tl (convert_zim_step inc rwf e s) := rfl
    rw [hrun, countFiltered_cons, countFetchFails_cons]
    have hih := ih (convert_zim_step inc rwf e s)
    cases hfe : e.fetchFails with
    | true =>
      have h1 : (convert_zim_step inc rwf e s).stats.total_entries =
          s.stats.total_entries := by
        rw [step_fetchFail inc rwf e s hfe]
      have h2 : sumDisp (convert_zim_step inc rwf e s).stats =
          sumDisp s.stats + 1 := by
        rw [step_fetchFail inc rwf e s hfe]
        simp [sumDisp]
        omega
      have hcn : counted_nowhere e = false := by
        simp [counted_nowhere, reaches_assign, reaches_process, hfe]
      rw [hcn]
      simp only [Bool.false_eq_true, if_false, if_true]
      omega
    | false =>
      have hst := step_stats inc rwf e s hfe
      have hcnif : (if counted_nowhere e = true then 1 else 0) +
          (if counted_nowhere e = true then 0 else 1) = 1 := by
        cases hcn : counted_nowhere e <;> simp
      simp only [hfe, Bool.false_eq_true, if_false]
      omega

/-- C2: refuted as stated. A single article-classified entry whose body fails the
minimum-content filter is assigned the Article disposition and bumps
`total_entries`, but no disposition or error counter: the counters sum to 0
while N = 1. -/
theorem C2_counterexample :
    classifyDisp artStub = Disposition.Article ∧
    (convert_zim false id [artStub]).stats.total_entries = 1 ∧
    sumDisp (convert_zim false id [artStub]).stats = 0 := by
  decide

/-- C2 (amended): every fetched entry bumps `total_entries` by one and exactly one
of the six disposition/outcome counters — except a filter-rejected
article-classified entry, which bumps none of them; consequently, over a whole
run, the counters sum to the number of entries seen, plus one per failed entry
fetch (counted as an error but never seen), minus one per filter-rejected
article entry. -/
theorem C2_stats_accounting :
    (∀ (inc : Bool) (rwf : Str → Str) (e : ZimEntry) (s : RunState),
        e.fetchFails = false →
        (convert_zim_step inc rwf e s).stats.total_entries =
            s.stats.total_entries + 1 ∧
        sumDisp (convert_zim_step inc rwf e s).stats =
          sumDisp s.stats + (if counted_nowhere e = true then 0 else 1)) ∧
    (∀ (inc : Bool) (rwf : Str → Str) (es : List ZimEntry),
        sumDisp (convert_zim inc rwf es).stats + countFiltered es =
          (convert_zim inc rwf es).stats.total_entries + countFetchFails es) := by
  constructor
  · intro inc rwf e s hfe
    exact step_stats inc rwf e s hfe
  · intro inc rwf es
    have hstats : (convert_zim inc rwf es).stats =
        (convert_zim_run inc rwf es initState).stats := by
      unfold convert_zim add_default_ebook
      split
      · rfl
      · rfl
    rw [hstats]
    have h := run_sum_eq inc rwf es initState
    have hz1 : sumDisp initState.stats = 0 := rfl
    have hz2 : initState.stats.total_entries = 0 := rfl
    omega

/-- Witness for C2_stats_accounting: the filter-rejected article entry bumps
`total_entries` and nothing else. -/
theorem C2_stats_accounting_witness :
    (convert_zim_step false id artStub initState).stats.total_entries =
        initState.stats.total_entries + 1 ∧
    sumDisp (convert_zim_step false id artStub initState).stats =
      sumDisp initState.stats + (if counted_nowhere artStub = true then 0 else 1) :=
  C2_stats_accounting.1 false id artStub initState (by decide)

end ZimConv

namespace ZimConv

theorem step_assigns_redirects (inc : Bool) (rwf : Str → Str) (e : ZimEntry)
    (s : RunState) :
    (convert_zim_step inc rwf e s).assigns =
      s.assigns + (if redirect_processed e = true then 1 else 0) +
        (if reaches_assign e = true then 1 else 0) ∧
    (convert_zim_step inc rwf e s).stats.redirects_processed =
      s.stats.redirects_processed +
        (if redirect_processed e = true then 1 else 0) := by
  cases hfe : e.fetchFails with
  | true =>
    rw [step_fetchFail inc rwf e s hfe]
    have h1 : redirect_processed e = false := by simp [redirect_processed, hfe]
    have h2 : reaches_assign e = false := by
      simp [reaches_assign, reaches_process, hfe]
    simp [h1, h2]
  | false =>
    unfold convert_zim_step
    simp only [hfe, Bool.false_eq_true, if_false]
    cases hsp : strStartsWith e.path (str "-") with
    | true =>
      have h1 : redirect_processed e = false := by simp [redirect_processed, hsp]
      have h2 : reaches_assign e = false := by
        simp [reaches_assign, reaches_process, hsp]
      simp [hsp, h1, h2]
    | false =>
      simp only [hsp, Bool.false_eq_true, if_false]
      cases hr : e.isRedirect with
      | true =>
        have h2 : reaches_assign e = false := by
          simp [reaches_assign, reaches_process, hr]
        simp only [hr, if_true]
        cases hrf : e.redirectResolveFails with
        | true =>
          have h1 : redirect_processed e = false := by
            simp [redirect_processed, hrf]
          simp [hrf, h1, h2]
        | false =>
          have h1 : redirect_processed e = true := by
            simp [redirect_processed, hfe, hsp, hr, hrf]
          simp [hrf, h1, h2]
      | false =>
        have h1 : redirect_processed e = false := by simp [redirect_processed, hr]
        simp only [hr, Bool.false_eq_true, if_false]
        cases hA : strStartsWith e.path (str "A/") with
        | true =>
          have h2 : reaches_assign e = (!e.storeFault) := by
            simp [reaches_assign, reaches_process, article_path, hfe, hsp, hr, hA]
          simp only [hA, if_true, h1, h2, Bool.false_eq_true, if_false, Nat.add_zero]
          have h3 := article_out_assigns inc rwf e
            { s with stats := { s.stats with
                total_entries := s.stats.total_entries + 1 } }
          refine ⟨?_, ?_⟩
          · rw [h3.1]
            cases hsf : e.storeFault <;> simp [hsf]
          · rw [h3.2]
        | false =>
          simp only [hA, Bool.false_eq_true, if_false, Bool.not_false, Bool.true_and]
          cases hlen : decide (2 < e.path.length) with
          | false =>
            have h2 : reaches_assign e = false := by
              simp [reaches_assign, reaches_process, article_path, hA, hlen]
            simp [hlen, h1, h2]
          | true =>
            simp only [hlen, Bool.true_and]
            cases hsl : e.path.contains '/' with
            | false =>
              have hsl2 : ¬ ('/' ∈ e.path) := by simpa using hsl
              have h2 : reaches_assign e = false := by
                simp [reaches_assign, reaches_process, article_path, hA, hlen, hsl2]
              simp [hsl, h1, h2]
            | true =>
              have hsl2 : '/' ∈ e.path := by simpa using hsl
              simp only [hsl, if_true]
              cases hbin : is_binary_content e.path with
              | true =>
                have h2 : reaches_assign e = false := by
                  simp [reaches_assign, reaches_process, article_path, hA, hlen,
                    hsl2, hbin]
                simp [hbin, h1, h2]
              | false =>
                have h2 : reaches_assign e = (!e.storeFault) := by
                  simp [reaches_assign, reaches_process, article_path, hfe, hsp,
                    hr, hA, hlen, hsl2, hbin]
                simp only [hbin, Bool.false_eq_true, if_false, h1, h2,
                  Nat.add_zero]
                have h3 := article_out_assigns inc rwf e
                  { s with stats := { s.stats with
                      total_entries := s.stats.total_entries + 1 } }
                refine ⟨?_, ?_⟩
                · rw [h3.1]
                  cases hsf : e.storeFault <;> simp [hsf]
                · rw [h3.2]

theorem run_assigns_eq (inc : Bool) (rwf : Str → Str) :
    ∀ (es : List ZimEntry) (s : RunState),
      (convert_zim_run inc rwf es s).assigns + s.stats.redirects_processed =
        s.assigns + (convert_zim_run inc rwf es s).stats.redirects_processed +
          (es.filter reaches_assign).length := by
  intro es
  induction es with
  | nil =>
    intro s
    simp [convert_zim_run]
  | cons e tl ih =>
    intro s
    have hrun : convert_zim_run inc rwf (e :: tl) s =
        convert_zim_run inc rwf tl (convert_zim_step inc rwf e s) := rfl
    rw [hrun]
    have hih := ih (convert_zim_step inc rwf e s)
    have hse := step_assigns_redirects inc rwf e s
    have hfc : ((e :: tl).filter reaches_assign).length =
        (tl.filter reaches_assign).length +
          (if reaches_assign e = true then 1 else 0) := by
      cases h : reaches_assign e <;> simp [List.filter_cons, h]
    rw [hfc]
    cases hrp : redirect_processed e <;> cases hra : reaches_assign e <;>
      simp only [hrp, hra, Bool.false_eq_true, if_false, if_true] at hse ⊢ <;>
      omega

/-- C3: refuted as stated. An article-classified entry rejected by the
minimum-content filter still receives exactly one title-index assignment —
the INSERT into `title_2_id` runs before the filters — so its lowercased
title appears in the title index even though `articles_processed` stays 0. -/
theorem C3_counterexample :
    (convert_zim_run false id [artStub] initState).assigns = 1 ∧
    (convert_zim_run false id [artStub] initState).stats.articles_processed = 0 ∧
    article_filtered artStub = true ∧
    lookupTitle (str "ab") ((convert_zim_run false id [artStub] initState).db) =
      some 3 := by
  decide

/-- C3 (amended): over any run, the number of title-index assignment operations
equals the number of processed redirects plus the number of article-classified
entries that reach `process_article_entry` without an unexpected store fault —
including the filter-rejected ones; entries classified Special, Binary, or
Other never receive an assignment. -/
theorem C3_title_assign_count (inc : Bool) (rwf : Str → Str) (es : List ZimEntry) :
    (convert_zim_run inc rwf es initState).assigns =
      (convert_zim_run inc rwf es initState).stats.redirects_processed +
        (es.filter reaches_assign).length := by
  have h := run_assigns_eq inc rwf es initState
  have h1 : initState.stats.redirects_processed = 0 := rfl
  have h2 : initState.assigns = 0 := rfl
  omega

/-- C6: refuted as stated. An article-classified entry whose title-index INSERT
raises a non-UNIQUE store-level IntegrityError is counted as one per-entry
processing error, and the run continues: the following redirect is still
processed and the total reaches 2. -/
theorem C6_counterexample :
    (convert_zim_run false id [artFault, redirDog] initState).stats.processing_errors
        = 1 ∧
    (convert_zim_run false id [artFault, redirDog] initState).stats.total_entries
        = 2 ∧
    (convert_zim_run false id [artFault, redirDog] initState).stats.redirects_processed
        = 1 ∧
    lookupTitle (str "dog")
        ((convert_zim_run false id [artFault, redirDog] initState).db) = some 5 := by
  decide

/-- C6 (amended): a non-UNIQUE store-level integrity violation raised while
inserting into the title index propagates out of `process_article_entry` but is
caught by the driver's per-entry handler: the entry contributes one processing
error, the database and the assignment count are untouched, and the run
continues with the next entry. -/
theorem C6_fault_is_per_entry (inc : Bool) (rwf : Str → Str) (e : ZimEntry)
    (s : RunState) (hfe : e.fetchFails = false)
    (hsp : strStartsWith e.path (str "-") = false) (hr : e.isRedirect = false)
    (hap : article_path e = true) (hsf : e.storeFault = true) :
    convert_zim_step inc rwf e s =
      { s with stats := { s.stats with
          total_entries := s.stats.total_entries + 1,
          processing_errors := s.stats.processing_errors + 1 } } := by
  unfold convert_zim_step
  simp only [hfe, Bool.false_eq_true, if_false, hsp, hr]
  simp only [article_path, Bool.or_eq_true, Bool.and_eq_true, Bool.not_eq_true'] at hap
  rcases hap with hA | ⟨⟨⟨hnA, hlen⟩, hsl⟩, hbin⟩
  · rw [pae_storeFault inc rwf e _ hsf]
    simp [hA]
  · have hsl2 : '/' ∈ e.path := by simpa using hsl
    rw [pae_storeFault inc rwf e _ hsf]
    simp [hnA, hlen, hsl2, hbin]

/-- Witness for C6_fault_is_per_entry: the faulting article entry against the
initial state. -/
theorem C6_fault_is_per_entry_witness :
    convert_zim_step false id artFault initState =
      { initState with stats := { initState.stats with
          total_entries := initState.stats.total_entries + 1,
          processing_errors := initState.stats.processing_errors + 1 } } :=
  C6_fault_is_per_entry false id artFault initState (by decide) (by decide)
    (by decide) (by decide) (by decide)

end ZimConv

namespace ZimConv

theorem compress_lt (sub : SubprocessOutcome) (n : Nat)
    (h : compress_image_with_imagemagick sub = some n) :
    n < MAX_COMPRESSED_IMAGE_SIZE := by
  unfold compress_image_with_imagemagick at h
  cases sub with
  | completed rc out =>
    dsimp only at h
    by_cases hrc : (rc == 0) = true
    · rw [if_pos hrc] at h
      by_cases hlt : out < MAX_COMPRESSED_IMAGE_SIZE
      · rw [if_pos hlt] at h
        cases h
        exact hlt
      · rw [if_neg hlt] at h
        cases h
    · rw [if_neg hrc] at h
      cases h
  | timedOut => cases h
  | raisedExn => cases h

theorem orig_path_char (originalSize : Nat) (enc raw : Nat) (fc : Bool)
    (h : (if decide (originalSize > MAX_IMAGE_SIZE) = true then ImgLinkResult.untouched
          else ImgLinkResult.inlined (b64Len originalSize) originalSize false) =
         ImgLinkResult.inlined enc raw fc) :
    enc = b64Len raw ∧ (fc = true → raw < MAX_COMPRESSED_IMAGE_SIZE) ∧
      (fc = false → raw ≤ MAX_IMAGE_SIZE) := by
  by_cases hbig : decide (originalSize > MAX_IMAGE_SIZE) = true
  · rw [if_pos hbig] at h
    cases h
  · rw [if_neg hbig] at h
    have hle : ¬ (originalSize > MAX_IMAGE_SIZE) := by simpa using hbig
    cases h
    exact ⟨rfl, by simp, fun _ => by omega⟩

/-- C5: refuted as stated. The size checks of `get_image_link` are applied to the
raw bytes, not to the base64 payload, and base64 expands by 4/3: a 307200-byte
original (exactly the 300 KiB ceiling) is inlined with a 409600-byte encoded
payload, and a recompressed 15359-byte result (just under the 15 KiB ceiling)
is inlined with a 20480-byte encoded payload. -/
theorem C5_counterexample :
    (get_image_link 307200 true false false SubprocessOutcome.timedOut =
        ImgLinkResult.inlined 409600 307200 false ∧ MAX_IMAGE_SIZE < 409600) ∧
    (get_image_link 20000 true true true (SubprocessOutcome.completed 0 15359) =
        ImgLinkResult.inlined 20480 15359 true ∧
      MAX_COMPRESSED_IMAGE_SIZE < 20480) := by
  decide

/-- C5 (amended): for every asset `get_image_link` inlines, the RAW byte size of
the inlined bytes respects the active ceiling — recompressed bytes are strictly
under 15 KiB and original bytes are at most 300 KiB — and the encoded payload
substituted into the document is the base64 expansion (4 bytes per 3-byte
group) of those raw bytes. -/
theorem C5_raw_size_ceiling (originalSize : Nat) (found ci ima : Bool)
    (sub : SubprocessOutcome) (enc raw : Nat) (fc : Bool)
    (h : get_image_link originalSize found ci ima sub =
        ImgLinkResult.inlined enc raw fc) :
    enc = b64Len raw ∧
    (fc = true → raw < MAX_COMPRESSED_IMAGE_SIZE) ∧
    (fc = false → raw ≤ MAX_IMAGE_SIZE) := by
  cases found with
  | false =>
    unfold get_image_link at h
    simp at h
  | true =>
    unfold get_image_link at h
    simp only [Bool.not_true, Bool.false_eq_true, if_false] at h
    by_cases hc : (ci && ima && decide (originalSize > MAX_COMPRESSED_IMAGE_SIZE)) = true
    · rw [if_pos hc] at h
      cases hcomp : compress_image_with_imagemagick sub with
      | none =>
        rw [hcomp] at h
        dsimp only at h
        exact orig_path_char originalSize enc raw fc h
      | some n =>
        rw [hcomp] at h
        dsimp only at h
        by_cases hn : (n != 0) = true
        · rw [if_pos hn] at h
          injection h with he hr hf
          subst he
          subst hr
          subst hf
          exact ⟨rfl, fun _ => compress_lt sub n hcomp, by simp⟩
        · rw [if_neg hn] at h
          exact orig_path_char originalSize enc raw fc h
    · rw [if_neg hc] at h
      exact orig_path_char originalSize enc raw fc h

/-- Witness for C5_raw_size_ceiling: a 20000-byte original inlined without
compression. -/
theorem C5_raw_size_ceiling_witness :
    (b64Len 20000 : Nat) = b64Len 20000 ∧
    (false = true → (20000 : Nat) < MAX_COMPRESSED_IMAGE_SIZE) ∧
    (false = false → (20000 : Nat) ≤ MAX_IMAGE_SIZE) :=
  C5_raw_size_ceiling 20000 true false false SubprocessOutcome.timedOut
    (b64Len 20000) 20000 false (by decide)

/-- C7: refuted as stated at one degenerate point. The Python
`if compressed_data:` is a truthiness test, so a recompression that SUCCEEDS
with an empty (0-byte) result — which is under the compressed ceiling — is
treated like a failure: the original bytes are inlined instead of the
recompressed ones. -/
theorem C7_counterexample :
    compress_image_with_imagemagick (SubprocessOutcome.completed 0 0) = some 0 ∧
    (0 : Nat) < MAX_COMPRESSED_IMAGE_SIZE ∧
    get_image_link 20000 true true true (SubprocessOutcome.completed 0 0) =
      ImgLinkResult.inlined (b64Len 20000) 20000 false := by
  decide

/-- C7 (amended): with compression active and the original above the compressed
ceiling, a recompression that fails, times out, exceeds the ceiling, or returns
an empty result degrades to the size-ceiling check on the original bytes
(inline the original when it is within 300 KiB, otherwise leave the reference
untouched) and never propagates an error; a recompression that succeeds with a
NONEMPTY result under the ceiling has its recompressed bytes inlined. -/
theorem C7_fallback (originalSize : Nat) (sub : SubprocessOutcome)
    (hbig : originalSize > MAX_COMPRESSED_IMAGE_SIZE) :
    ((compress_image_with_imagemagick sub = none ∨
        compress_image_with_imagemagick sub = some 0) →
      get_image_link originalSize true true true sub =
        (if originalSize > MAX_IMAGE_SIZE then ImgLinkResult.untouched
         else ImgLinkResult.inlined (b64Len originalSize) originalSize false)) ∧
    (∀ n, compress_image_with_imagemagick sub = some n → n ≠ 0 →
      get_image_link originalSize true true true sub =
        ImgLinkResult.inlined (b64Len n) n true) := by
  have hcond : (true && true && decide (originalSize > MAX_COMPRESSED_IMAGE_SIZE))
      = true := by
    simp [hbig]
  constructor
  · intro hfail
    unfold get_image_link
    simp only [Bool.not_true, Bool.false_eq_true, if_false, hcond, if_true]
    rcases hfail with hf | hf <;> rw [hf] <;> simp
  · intro n hsome hn
    unfold get_image_link
    simp only [Bool.not_true, Bool.false_eq_true, if_false, hcond, if_true]
    rw [hsome]
    simp [hn]

/-- Witness for C7_fallback: a timed-out recompression of a 20000-byte original
falls back to inlining the original; a successful 1000-byte recompression of a
16000-byte original is inlined as the recompressed bytes. -/
theorem C7_fallback_witness :
    (get_image_link 20000 true true true SubprocessOutcome.timedOut =
      (if (20000 : Nat) > MAX_IMAGE_SIZE then ImgLinkResult.untouched
       else ImgLinkResult.inlined (b64Len 20000) 20000 false)) ∧
    (get_image_link 16000 true true true (SubprocessOutcome.completed 0 1000) =
      ImgLinkResult.inlined (b64Len 1000) 1000 true) :=
  ⟨(C7_fallback 20000 SubprocessOutcome.timedOut (by decide)).1 (Or.inl (by decide)),
   (C7_fallback 16000 (SubprocessOutcome.completed 0 1000) (by decide)).2 1000
     (by decide) (by decide)⟩

end ZimConv

namespace ZimConv

theorem nodup_titles_insertOrReplaceTitle2Id (idx : Nat) (t : Str) (db : DB)
    (h : (db.title_2_id.map (fun r => r.title_lower_case)).Nodup) :
    ((insertOrReplaceTitle2Id idx t db).title_2_id.map
        (fun r => r.title_lower_case)).Nodup := by
  unfold insertOrReplaceTitle2Id
  simp only [List.map_append, List.map_cons, List.map_nil]
  apply List.Nodup.append
  · exact List.Nodup.sublist (List.Sublist.map _ (List.filter_sublist _)) h
  · exact List.nodup_singleton t
  · intro a ha hb
    rcases List.mem_singleton.mp hb with hb2
    subst hb2
    rcases List.mem_map.mp ha with ⟨r, hr, hrt⟩
    rcases List.mem_filter.mp hr with ⟨_, hpr⟩
    simp only [Bool.not_eq_true', beq_eq_false_iff_ne, ne_eq] at hpr
    exact hpr hrt

theorem titles_update (newId oldId : Nat) (db : DB) :
    (updateTitle2IdSetId newId oldId db).title_2_id.map
        (fun r => r.title_lower_case) =
      db.title_2_id.map (fun r => r.title_lower_case) := by
  unfold updateTitle2IdSetId
  simp only [List.map_map]
  apply List.map_congr_left
  intro r _
  by_cases h : r.id = oldId <;> simp [h]

theorem articles_title_assign (idx : Nat) (t : Str) (db : DB) :
    (title_assign idx t db).articles = db.articles := by
  unfold title_assign insertTitle2Id
  by_cases hany : db.title_2_id.any (fun r => r.title_lower_case == t) = true
  · rw [if_pos hany]
    cases lookupTitle t db with
    | none => rfl
    | some cur =>
      dsimp only
      by_cases hne : cur ≠ idx
      · rw [if_pos hne]
        rfl
      · rw [if_neg hne]
  · rw [if_neg hany]

theorem nodup_titles_title_assign (idx : Nat) (t : Str) (db : DB)
    (h : (db.title_2_id.map (fun r => r.title_lower_case)).Nodup) :
    ((title_assign idx t db).title_2_id.map (fun r => r.title_lower_case)).Nodup := by
  unfold title_assign insertTitle2Id
  by_cases hany : db.title_2_id.any (fun r => r.title_lower_case == t) = true
  · rw [if_pos hany]
    cases lookupTitle t db with
    | none => exact h
    | some cur =>
      dsimp only
      by_cases hne : cur ≠ idx
      · rw [if_pos hne, titles_update]
        exact h
      · rw [if_neg hne]
        exact h
  · rw [if_neg hany]
    dsimp only
    simp only [List.map_append, List.map_cons, List.map_nil]
    apply List.Nodup.append h (List.nodup_singleton t)
    intro a ha hb
    have hb2 : a = t := List.mem_singleton.mp hb
    rcases List.mem_map.mp ha with ⟨r, hr, hrt⟩
    have h2 : db.title_2_id.any (fun r2 => r2.title_lower_case == t) = true :=
      List.any_eq_true.mpr ⟨r, hr, by simp [hrt, hb2]⟩
    exact hany h2

theorem nodup_insertOrReplaceArticles (idx : Nat) (t : Str) (b : ZBody) (db : DB)
    (h1 : (db.articles.map (fun r => r.id)).Nodup)
    (h2 : (db.articles.map (fun r => r.title)).Nodup) :
    ((insertOrReplaceArticles idx t b db).articles.map (fun r => r.id)).Nodup ∧
    ((insertOrReplaceArticles idx t b db).articles.map (fun r => r.title)).Nodup := by
  unfold insertOrReplaceArticles
  constructor
  · simp only [List.map_append, List.map_cons, List.map_nil]
    apply List.Nodup.append
    · exact List.Nodup.sublist (List.Sublist.map _ (List.filter_sublist _)) h1
    · exact List.nodup_singleton idx
    · intro a ha hb
      rcases List.mem_singleton.mp hb with hb2
      subst hb2
      rcases List.mem_map.mp ha with ⟨r, hr, hrt⟩
      rcases List.mem_filter.mp hr with ⟨_, hpr⟩
      simp only [Bool.and_eq_true, Bool.not_eq_true', beq_eq_false_iff_ne, ne_eq]
        at hpr
      exact hpr.1 hrt
  · simp only [List.map_append, List.map_cons, List.map_nil]
    apply List.Nodup.append
    · exact List.Nodup.sublist (List.Sublist.map _ (List.filter_sublist _)) h2
    · exact List.nodup_singleton t
    · intro a ha hb
      rcases List.mem_singleton.mp hb with hb2
      subst hb2
      rcases List.mem_map.mp ha with ⟨r, hr, hrt⟩
      rcases List.mem_filter.mp hr with ⟨_, hpr⟩
      simp only [Bool.and_eq_true, Bool.not_eq_true', beq_eq_false_iff_ne, ne_eq]
        at hpr
      exact hpr.2 hrt

theorem Inv_title_assign (idx : Nat) (t : Str) (db : DB) (h : Inv db) :
    Inv (title_assign idx t db) := by
  obtain ⟨ht, hi, ha⟩ := h
  refine ⟨nodup_titles_title_assign idx t db ht, ?_, ?_⟩
  · rw [articles_title_assign]
    exact hi
  · rw [articles_title_assign]
    exact ha

theorem Inv_insertOrReplaceTitle2Id (idx : Nat) (t : Str) (db : DB) (h : Inv db) :
    Inv (insertOrReplaceTitle2Id idx t db) := by
  obtain ⟨ht, hi, ha⟩ := h
  exact ⟨nodup_titles_insertOrReplaceTitle2Id idx t db ht, hi, ha⟩

theorem Inv_insertOrReplaceArticles (idx : Nat) (t : Str) (b : ZBody) (db : DB)
    (h : Inv db) : Inv (insertOrReplaceArticles idx t b db) := by
  obtain ⟨ht, hi, ha⟩ := h
  have h2 := nodup_insertOrReplaceArticles idx t b db hi ha
  exact ⟨ht, h2.1, h2.2⟩

theorem pae_Inv (inc : Bool) (rwf : Str → Str) (e : ZimEntry) (s : RunState)
    (h : Inv s.db) : Inv ((process_article_entry inc rwf e s).1.db) := by
  unfold process_article_entry
  split
  · exact h
  · have h1 : Inv (title_assign e.index (strLower e.title) s.db) :=
      Inv_title_assign _ _ _ h
    split
    · exact h1
    · split
      · exact h1
      · split
        · exact h1
        · exact Inv_insertOrReplaceArticles _ _ _ _ h1

theorem step_Inv (inc : Bool) (rwf : Str → Str) (e : ZimEntry) (s : RunState)
    (h : Inv s.db) : Inv ((convert_zim_step inc rwf e s).db) := by
  unfold convert_zim_step
  dsimp only
  split
  · exact h
  · split
    · exact h
    · split
      · split
        · exact h
        · exact Inv_insertOrReplaceTitle2Id _ _ _ h
      · split
        · split
          · exact pae_Inv inc rwf e _ h
          · exact pae_Inv inc rwf e _ h
        · split
          · split
            · exact h
            · split
              · exact pae_Inv inc rwf e _ h
              · exact pae_Inv inc rwf e _ h
          · exact h

theorem run_Inv (inc : Bool) (rwf : Str → Str) :
    ∀ (es : List ZimEntry) (s : RunState), Inv s.db →
      Inv ((convert_zim_run inc rwf es s).db) := by
  intro es
  induction es with
  | nil => intro s h; exact h
  | cons e tl ih =>
    intro s h
    exact ih (convert_zim_step inc rwf e s) (step_Inv inc rwf e s h)

theorem ebook_Inv (s : RunState) (h : Inv s.db) : Inv (add_default_ebook s).db := by
  unfold add_default_ebook
  split
  · exact Inv_insertOrReplaceTitle2Id _ _ _
      (Inv_insertOrReplaceArticles _ _ _ _ h)
  · exact h

/-- C8: every database-writing operation of the run — the title assignment with
its conflict repoint, the redirect INSERT OR REPLACE, the article INSERT OR
REPLACE, and the default-Ebook step — preserves the store's uniqueness
invariant (lowercased title keys unique in the title index; ids and display
titles each unique in the articles table), so the invariant holds after every
prefix of a run and at the end of the whole conversion. -/
theorem C8_uniqueness_invariant :
    (∀ (idx : Nat) (t : Str) (db : DB), Inv db → Inv (title_assign idx t db)) ∧
    (∀ (idx : Nat) (t : Str) (db : DB), Inv db →
        Inv (insertOrReplaceTitle2Id idx t db)) ∧
    (∀ (idx : Nat) (t : Str) (b : ZBody) (db : DB), Inv db →
        Inv (insertOrReplaceArticles idx t b db)) ∧
    (∀ (s : RunState), Inv s.db → Inv (add_default_ebook s).db) ∧
    (∀ (inc : Bool) (rwf : Str → Str) (es : List ZimEntry) (s : RunState),
        Inv s.db → Inv ((convert_zim_run inc rwf es s).db)) ∧
    (∀ (inc : Bool) (rwf : Str → Str) (es : List ZimEntry),
        Inv ((convert_zim inc rwf es).db)) := by
  refine ⟨Inv_title_assign, Inv_insertOrReplaceTitle2Id, Inv_insertOrReplaceArticles,
    ebook_Inv, run_Inv, ?_⟩
  intro inc rwf es
  exact ebook_Inv _ (run_Inv inc rwf es initState (by decide))

/-- Witness for C8_uniqueness_invariant: the title assignment on a two-row store. -/
theorem C8_uniqueness_invariant_witness : Inv (title_assign 7 (str "cat") dbTwoTitles) :=
  C8_uniqueness_invariant.1 7 (str "cat") dbTwoTitles (by decide)

end ZimConv

namespace ZimConv

/-- C10: at the end of any conversion run in which no article titled Ebook was
produced, the database holds the synthetic article row (id 999999, title
Ebook, zstd-compressed welcome page built from this run's statistics) and the
title index maps ebook to 999999; when an article titled Ebook already exists,
the default-entry step changes nothing. -/
theorem C10_default_ebook (inc : Bool) (rwf : Str → Str) (es : List ZimEntry) :
    (((convert_zim_run inc rwf es initState).db.articles.filter
        (fun r => r.title == str "Ebook")).length = 0 →
      (⟨999999, str "Ebook",
          zstdCompress (default_content
            (convert_zim_run inc rwf es initState).stats)⟩ : ArticleRow) ∈
          (convert_zim inc rwf es).db.articles ∧
      lookupTitle (str "ebook") (convert_zim inc rwf es).db = some 999999) ∧
    (((convert_zim_run inc rwf es initState).db.articles.filter
        (fun r => r.title == str "Ebook")).length ≠ 0 →
      convert_zim inc rwf es = convert_zim_run inc rwf es initState) := by
  constructor
  · intro h0
    have hb : (((convert_zim_run inc rwf es initState).db.articles.filter
        (fun r => r.title == str "Ebook")).length == 0) = true := by
      simp [h0]
    unfold convert_zim add_default_ebook
    rw [if_pos hb]
    constructor
    · simp [insertOrReplaceTitle2Id, insertOrReplaceArticles]
    · exact lookupTitle_insertOrReplaceTitle2Id_self _ _ _
  · intro h0
    have hb : ¬ ((((convert_zim_run inc rwf es initState).db.articles.filter
        (fun r => r.title == str "Ebook")).length == 0) = true) := by
      simpa using h0
    unfold convert_zim add_default_ebook
    rw [if_neg hb]

/-- Witness for C10_default_ebook: an empty archive produces no Ebook article, so
the synthetic row and the ebook mapping are present. -/
theorem C10_default_ebook_witness :
    (⟨999999, str "Ebook",
        zstdCompress (default_content
          (convert_zim_run false id [] initState).stats)⟩ : ArticleRow) ∈
        (convert_zim false id []).db.articles ∧
    lookupTitle (str "ebook") (convert_zim false id []).db = some 999999 :=
  (C10_default_ebook false id []).1 (by decide)

end ZimConv

namespace PageViews

theorem find?_filter_preserve {α : Type} (l : List α) (p q : α → Bool)
    (h : ∀ x, p x = true → q x = true) :
    (l.filter q).find? p = l.find? p := by
  induction l with
  | nil => rfl
  | cons x tl ih =>
    by_cases hp : p x = true
    · rw [List.filter_cons, if_pos (h x hp), List.find?_cons_of_pos _ hp,
        List.find?_cons_of_pos _ hp]
    · by_cases hq : q x = true
      · rw [List.filter_cons, if_pos hq, List.find?_cons_of_neg _ hp,
          List.find?_cons_of_neg _ hp]
        exact ih
      · rw [List.filter_cons, if_neg hq, List.find?_cons_of_neg _ hp]
        exact ih

theorem statsLookup_bump_self (d i : Str) (c : Nat) (st : PvStats) :
    statsLookup d i (statsBump d i c st) =
      some ((statsLookup d i st).getD 0 + c) := by
  unfold statsBump
  cases hl : statsLookup d i st with
  | none =>
    dsimp only
    unfold statsLookup at hl ⊢
    have hfind := Option.map_eq_none.mp hl
    rw [List.find?_append, hfind]
    simp
  | some v =>
    dsimp only
    have hp : ((fun p : (Str × Str) × Nat => p.1 == (d, i)) ∘
        (fun p => if p.1 == (d, i) then (p.1, p.2 + c) else p)) =
        (fun p : (Str × Str) × Nat => p.1 == (d, i)) := by
      funext p
      by_cases hq : p.1 = (d, i) <;> simp [hq]
    unfold statsLookup at hl ⊢
    rw [List.find?_map, hp]
    rcases Option.map_eq_some'.mp hl with ⟨q, hfq, hq2⟩
    have hq1 := List.find?_some hfq
    rw [hfq]
    have hq3 : q.1 = (d, i) := eq_of_beq hq1
    simp [hq3, hq2]

theorem statsLookup_bump_other (d i d2 i2 : Str) (c : Nat) (st : PvStats)
    (hne : ((d2, i2) : Str × Str) ≠ (d, i)) :
    statsLookup d i (statsBump d2 i2 c st) = statsLookup d i st := by
  unfold statsBump
  cases hl : statsLookup d2 i2 st with
  | none =>
    unfold statsLookup
    rw [List.find?_append]
    have h2 : (([((d2, i2), c)] : PvStats).find?
        (fun p => p.1 == (d, i))) = none := by
      simp [hne]
    rw [h2]
    cases st.find? (fun p => p.1 == (d, i)) <;> rfl
  | some v =>
    unfold statsLookup
    have hp : ((fun p : (Str × Str) × Nat => p.1 == (d, i)) ∘
        (fun p => if p.1 == (d2, i2) then (p.1, p.2 + c) else p)) =
        (fun p : (Str × Str) × Nat => p.1 == (d, i)) := by
      funext p
      by_cases hq : p.1 = (d2, i2) <;> simp [hq]
    rw [List.find?_map, hp]
    cases hf : st.find? (fun p => p.1 == (d, i)) with
    | none => rfl
    | some q =>
      have hq1 := List.find?_some hf
      have hq3 : q.1 = (d, i) := eq_of_beq hq1
      have hq4 : q.1 ≠ (d2, i2) := by
        rw [hq3]
        exact fun hh => hne hh.symm
      simp [hq4]

theorem storedCount_insertOrReplacePv_self (key wikiId dom : Str) (total : Nat)
    (db : PvDB) :
    storedCount key (insertOrReplacePv key wikiId dom total db) = some total := by
  have h1 : (db.pageviews.filter (fun r => !(r.wiki_domain_id == key))).find?
      (fun r => r.wiki_domain_id == key) = none := by
    rw [List.find?_eq_none]
    intro x hx
    rcases List.mem_filter.mp hx with ⟨_, hbx⟩
    simp only [Bool.not_eq_true', beq_eq_false_iff_ne, ne_eq] at hbx
    simp [hbx]
  simp [storedCount, insertOrReplacePv, List.find?_append, h1]

theorem storedCount_insertOrReplacePv_other (key key2 wikiId dom : Str)
    (total : Nat) (db : PvDB) (hne : key2 ≠ key) :
    storedCount key (insertOrReplacePv key2 wikiId dom total db) =
      storedCount key db := by
  unfold storedCount insertOrReplacePv
  rw [List.find?_append]
  have h2 : (([(⟨key2, wikiId, dom, total⟩ : PvRow)]).find?
      (fun r => r.wiki_domain_id == key)) = none := by
    simp [hne]
  have h1 : (db.pageviews.filter (fun r => !(r.wiki_domain_id == key2))).find?
      (fun r => r.wiki_domain_id == key) =
      db.pageviews.find? (fun r => r.wiki_domain_id == key) := by
    apply find?_filter_preserve
    intro x hx
    have hxk : x.wiki_domain_id = key := eq_of_beq hx
    simp only [hxk, Bool.not_eq_true', beq_eq_false_iff_ne, ne_eq]
    exact fun hh => hne hh.symm
  rw [h1, h2]
  cases db.pageviews.find? (fun r => r.wiki_domain_id == key) <;> rfl

theorem storedCount_insertOrReplacePvTitle (key k2 t : Str) (db : PvDB) :
    storedCount key (insertOrReplacePvTitle k2 t db) = storedCount key db := rfl

theorem foldl_add_shift (fl : List PvLine) : ∀ n : Nat,
    fl.foldl (fun acc l => acc + l.page_count) n =
      n + fl.foldl (fun acc l => acc + l.page_count) 0 := by
  induction fl with
  | nil => intro n; simp
  | cons x tl ih =>
    intro n
    simp only [List.foldl_cons]
    rw [ih (n + x.page_count), ih (0 + x.page_count)]
    omega

theorem qualSum_cons (V : List Str) (d i : Str) (l : PvLine) (tl : List PvLine) :
    qualSum V d i (l :: tl) =
      (if qualPair V d i l = true then l.page_count else 0) + qualSum V d i tl := by
  unfold qualSum
  cases h : qualPair V d i l with
  | false => simp [List.filter_cons, h]
  | true =>
    rw [List.filter_cons, if_pos h]
    simp only [List.foldl_cons, if_true]
    rw [foldl_add_shift]
    omega

theorem pv_step_skip (V : List Str) (l : PvLine) (s : PvState)
    (h : qualifies V l = false) :
    parse_pageviews_step V l s = s := by
  unfold parse_pageviews_step
  by_cases h1 : l.numParts < 4
  · rw [if_pos h1]
  · rw [if_neg h1]
    by_cases h2 : (l.page_wiki_id == str "null") = true
    · rw [if_pos h2]
    · rw [if_neg h2]
      by_cases h3 : l.page_count < MIN_MONTLY_PAGE_COUNT
      · rw [if_pos h3]
      · rw [if_neg h3]
        by_cases h4 : (!(V.contains l.domain)) = true
        · rw [if_pos h4]
        · exfalso
          have h2b : (l.page_wiki_id == str "null") = false :=
            Bool.eq_false_iff.mpr h2
          have h4b : V.contains l.domain = true := by
            cases hcv : V.contains l.domain with
            | false => exact absurd (by rw [hcv]; rfl) h4
            | true => rfl
          have h4m : l.domain ∈ V := by simpa using h4b
          have hq : qualifies V l = true := by
            simp [qualifies, h1, h2b, h3, h4m]
          rw [hq] at h
          simp at h

theorem pv_step_processing (V : List Str) (l : PvLine) (s : PvState)
    (hq : qualifies V l = true) :
    parse_pageviews_step V l s =
      { stats := statsBump l.domain l.page_wiki_id l.page_count s.stats,
        db := insertOrReplacePvTitle (l.domain ++ str "-" ++ l.page_wiki_id)
              l.page_name
              (insertOrReplacePv (l.domain ++ str "-" ++ l.page_wiki_id)
                l.page_wiki_id l.domain
                ((statsLookup l.domain l.page_wiki_id
                    (statsBump l.domain l.page_wiki_id l.page_count
                      s.stats)).getD 0)
                s.db) } := by
  unfold qualifies at hq
  simp only [Bool.and_eq_true, Bool.not_eq_true'] at hq
  obtain ⟨⟨⟨hq1, hq2⟩, hq3⟩, hq4⟩ := hq
  have hp1 : ¬ (l.numParts < 4) := by simpa using hq1
  have hp3 : ¬ (l.page_count < MIN_MONTLY_PAGE_COUNT) := by simpa using hq3
  have hp2 : ¬ ((l.page_wiki_id == str "null") = true) := by simp [hq2]
  have hq4m : l.domain ∈ V := by simpa using hq4
  have hp4 : ¬ ((!(V.contains l.domain)) = true) := by simp [hq4m]
  unfold parse_pageviews_step
  rw [if_neg hp1, if_neg hp2, if_neg hp3, if_neg hp4]

theorem pv_step_matching (V : List Str) (d i : Str) (l : PvLine) (s : PvState)
    (hm : qualPair V d i l = true) :
    statsLookup d i (parse_pageviews_step V l s).stats =
      some ((statsLookup d i s.stats).getD 0 + l.page_count) ∧
    storedCount (d ++ str "-" ++ i) (parse_pageviews_step V l s).db =
      some ((statsLookup d i s.stats).getD 0 + l.page_count) := by
  have hm2 := hm
  unfold qualPair at hm2
  simp only [Bool.and_eq_true] at hm2
  obtain ⟨⟨hq, hdb⟩, hib⟩ := hm2
  have hd : l.domain = d := eq_of_beq hdb
  have hi2 : l.page_wiki_id = i := eq_of_beq hib
  rw [pv_step_processing V l s hq]
  dsimp only
  rw [hd, hi2]
  constructor
  · rw [statsLookup_bump_self]
  · rw [storedCount_insertOrReplacePvTitle, storedCount_insertOrReplacePv_self,
      statsLookup_bump_self]
    simp

theorem pv_step_nonmatching (V : List Str) (d i : Str) (l : PvLine) (s : PvState)
    (hkey : qualifies V l = true →
        l.domain ++ str "-" ++ l.page_wiki_id = d ++ str "-" ++ i →
        l.domain = d ∧ l.page_wiki_id = i)
    (hnm : qualPair V d i l = false) :
    statsLookup d i (parse_pageviews_step V l s).stats = statsLookup d i s.stats ∧
    storedCount (d ++ str "-" ++ i) (parse_pageviews_step V l s).db =
      storedCount (d ++ str "-" ++ i) s.db := by
  cases hq : qualifies V l with
  | false =>
    rw [pv_step_skip V l s hq]
    exact ⟨rfl, rfl⟩
  | true =>
    have hpair : ¬ (l.domain = d ∧ l.page_wiki_id = i) := by
      intro hdi
      have hqp : qualPair V d i l = true := by
        simp [qualPair, hq, hdi.1, hdi.2]
      rw [hnm] at hqp
      simp at hqp
    rw [pv_step_processing V l s hq]
    dsimp only
    constructor
    · apply statsLookup_bump_other
      intro heq
      apply hpair
      exact ⟨congrArg Prod.fst heq, congrArg Prod.snd heq⟩
    · rw [storedCount_insertOrReplacePvTitle]
      apply storedCount_insertOrReplacePv_other
      intro hk
      exact hpair (hkey hq hk)

end PageViews

namespace PageViews

theorem pv_fold_main (V : List Str) (d i : Str) :
    ∀ (lines : List PvLine) (s : PvState),
      (∀ l ∈ lines, qualifies V l = true →
          l.domain ++ str "-" ++ l.page_wiki_id = d ++ str "-" ++ i →
          l.domain = d ∧ l.page_wiki_id = i) →
      (∀ v, statsLookup d i s.stats = some v →
          storedCount (d ++ str "-" ++ i) s.db = some v) →
      (statsLookup d i
          (lines.foldl (fun s2 l => parse_pageviews_step V l s2) s).stats =
        (if (lines.filter (qualPair V d i)).isEmpty = true
         then statsLookup d i s.stats
         else some ((statsLookup d i s.stats).getD 0 + qualSum V d i lines))) ∧
      (∀ v, statsLookup d i
            (lines.foldl (fun s2 l => parse_pageviews_step V l s2) s).stats =
              some v →
          storedCount (d ++ str "-" ++ i)
            (lines.foldl (fun s2 l => parse_pageviews_step V l s2) s).db =
            some v) ∧
      ((lines.filter (qualPair V d i)).isEmpty = true →
        storedCount (d ++ str "-" ++ i)
          (lines.foldl (fun s2 l => parse_pageviews_step V l s2) s).db =
        storedCount (d ++ str "-" ++ i) s.db) := by
  intro lines
  induction lines with
  | nil =>
    intro s hkey hinv
    exact ⟨by simp, hinv, fun _ => rfl⟩
  | cons l tl ih =>
    intro s hkey hinv
    have hkey_l := hkey l (List.mem_cons_self l tl)
    have hkey_tl : ∀ l2 ∈ tl, qualifies V l2 = true →
        l2.domain ++ str "-" ++ l2.page_wiki_id = d ++ str "-" ++ i →
        l2.domain = d ∧ l2.page_wiki_id = i :=
      fun l2 h2 => hkey l2 (List.mem_cons_of_mem l h2)
    cases hq : qualPair V d i l with
    | true =>
      have hm := pv_step_matching V d i l s hq
      have hinv2 : ∀ v, statsLookup d i (parse_pageviews_step V l s).stats =
            some v →
          storedCount (d ++ str "-" ++ i) (parse_pageviews_step V l s).db =
            some v := by
        intro v hv
        rw [hm.1] at hv
        injection hv with hv2
        rw [hm.2, hv2]
      have ihh := ih (parse_pageviews_step V l s) hkey_tl hinv2
      have hfc : ((l :: tl).filter (qualPair V d i)).isEmpty = false := by
        simp [List.filter_cons, hq]
      refine ⟨?_, ihh.2.1, ?_⟩
      · simp only [List.foldl_cons, hfc, Bool.false_eq_true, if_false]
        rw [ihh.1]
        cases hemp : (tl.filter (qualPair V d i)).isEmpty with
        | true =>
          have hq0 : qualSum V d i tl = 0 := by
            unfold qualSum
            rw [List.isEmpty_iff.mp hemp]
            rfl
          rw [hm.1, qualSum_cons]
          simp [hq, hq0]
        | false =>
          rw [hm.1, qualSum_cons]
          simp only [Bool.false_eq_true, if_false, hq, if_true,
            Option.getD_some, Option.some.injEq]
          omega
      · intro hcontra
        rw [hfc] at hcontra
        simp at hcontra
    | false =>
      have hnm := pv_step_nonmatching V d i l s hkey_l hq
      have hinv2 : ∀ v, statsLookup d i (parse_pageviews_step V l s).stats =
            some v →
          storedCount (d ++ str "-" ++ i) (parse_pageviews_step V l s).db =
            some v := by
        intro v hv
        rw [hnm.1] at hv
        rw [hnm.2]
        exact hinv v hv
      have ihh := ih (parse_pageviews_step V l s) hkey_tl hinv2
      have hfc : ((l :: tl).filter (qualPair V d i)) = tl.filter (qualPair V d i) := by
        simp [List.filter_cons, hq]
      refine ⟨?_, ihh.2.1, ?_⟩
      · simp only [List.foldl_cons, hfc]
        rw [ihh.1, hnm.1, qualSum_cons]
        simp [hq]
      · intro hemp
        rw [hfc] at hemp
        simp only [List.foldl_cons]
        rw [ihh.2.2 hemp, hnm.2]

/-- C9: refuted as stated. Two runs of the utility against the same database,
each feeding one qualifying line for the same (domain, page id) key (500 views,
then 600 views), leave a stored count of 600 — the later run REPLACES the
stored value with its own in-memory total instead of adding to the 500 already
stored. -/
theorem C9_counterexample :
    storedCount (str "en.wikipedia-7")
        ((pv_run [str "en.wikipedia"] [pvLine600]
            (pv_run [str "en.wikipedia"] [pvLine500] emptyPvDB).db).db) = some 600 ∧
    storedCount (str "en.wikipedia-7")
        ((pv_run [str "en.wikipedia"] [pvLine600]
            (pv_run [str "en.wikipedia"] [pvLine500] emptyPvDB).db).db) ≠
      some (500 + 600) := by
  decide

/-- C9 (amended): counts accumulate only across the lines of one run, through the
in-memory stats dict that starts empty each run: after a run whose feed
contains at least one qualifying line for a (domain, page id) pair — and in
which no other pair collides with that pair's composite key — the stored count
for the pair's key equals that run's sum of qualifying view counts, regardless
of what the database held before the run; a later run therefore replaces the
stored count instead of adding to it. -/
theorem C9_within_run_total (V : List Str) (lines : List PvLine) (db : PvDB)
    (d i : Str)
    (hkey : ∀ l ∈ lines, qualifies V l = true →
        l.domain ++ str "-" ++ l.page_wiki_id = d ++ str "-" ++ i →
        l.domain = d ∧ l.page_wiki_id = i)
    (hex : (lines.filter (qualPair V d i)).isEmpty = false) :
    storedCount (d ++ str "-" ++ i) (pv_run V lines db).db =
      some (qualSum V d i lines) := by
  have hinv0 : ∀ v,
      statsLookup d i ({ stats := [], db := db } : PvState).stats = some v →
      storedCount (d ++ str "-" ++ i) ({ stats := [], db := db } : PvState).db =
        some v := by
    intro v hv
    simp [statsLookup] at hv
  have h := pv_fold_main V d i lines { stats := [], db := db } hkey hinv0
  have h1 := h.1
  rw [hex] at h1
  simp only [Bool.false_eq_true, if_false] at h1
  have h1b : statsLookup d i
      (lines.foldl (fun s2 l => parse_pageviews_step V l s2)
        { stats := [], db := db }).stats = some (qualSum V d i lines) := by
    rw [h1]
    simp [statsLookup]
  exact h.2.1 (qualSum V d i lines) h1b

/-- Witness for C9_within_run_total: one run over the two qualifying lines stores
their sum. -/
theorem C9_within_run_total_witness :
    storedCount (str "en.wikipedia" ++ str "-" ++ str "7")
        (pv_run [str "en.wikipedia"] [pvLine500, pvLine600] emptyPvDB).db =
      some (qualSum [str "en.wikipedia"] (str "en.wikipedia") (str "7")
        [pvLine500, pvLine600]) :=
  C9_within_run_total [str "en.wikipedia"] [pvLine500, pvLine600] emptyPvDB
    (str "en.wikipedia") (str "7") (by decide) (by decide)

end PageViews
